import Mathlib

/-!
Shallow embedding of the Virtual Gamepad plugin (src/code.js).

The plugin translates pointer gestures on on-screen buttons into the host
engine's synthetic keyboard input stream.  We model:
  * parameter resolution (`resolveKeyCode`, and the raw `showGamepad` read),
  * the input bridge (`pressKey`, `releaseKey`, `clearRepeat`) together with
    an explicit timer system (pending timeouts / intervals with fresh ids),
  * the pointer bookkeeping (`handlePointerUp`, the global document listener),
  * DOM mounting of the two control clusters (`mountDPad`, `mountABXY`).
Host notifications are recorded in an append-only event log.
-/

namespace VirtualGamepad

/-! ## JS values and parameter resolution (src/code.js lines 21, 32-41) -/

/-- The JavaScript values relevant to plugin-parameter retrieval.
`nan` stands for a numeric value that is not finite (NaN or ±Infinity). -/
inductive JSValue where
  | null
  | undefined
  | boolean (b : Bool)
  | str (s : String)
  | number (n : Int)
  | nan
deriving DecidableEq, Repr

/-- Result of JavaScript `Number(value)` coercion: a finite number or not. -/
inductive NumCoercion where
  | finite (n : Int)
  | notFinite
deriving DecidableEq, Repr

/-- Strip leading and trailing whitespace from a character list — JS trims a
string before numeric conversion. -/
def trimWs (cs : List Char) : List Char :=
  ((cs.dropWhile Char.isWhitespace).reverse.dropWhile Char.isWhitespace).reverse

/-- Parse a non-empty all-digit character list as a decimal natural. -/
def parseNatChars (cs : List Char) : Option Nat :=
  if cs = [] then none
  else if cs.all Char.isDigit then
    some (cs.foldl (fun acc c => acc * 10 + (c.toNat - 48)) 0)
  else none

/-- Parse an optionally signed decimal integer from a character list. -/
def parseIntChars (cs : List Char) : Option Int :=
  match cs with
  | '-' :: rest => (parseNatChars rest).map (fun n => -(n : Int))
  | '+' :: rest => (parseNatChars rest).map (fun n => (n : Int))
  | _ => (parseNatChars cs).map (fun n => (n : Int))

/-- JavaScript `Number(value)` coercion, restricted to integer-valued results:
`null`, `false` and (trimmed-)empty strings coerce to `0`, `true` to `1`,
numeric strings to their value, `undefined` and non-numeric strings to NaN. -/
def toNumber : JSValue → NumCoercion
  | .null => .finite 0
  | .undefined => .notFinite
  | .boolean b => .finite (if b then 1 else 0)
  | .number n => .finite n
  | .nan => .notFinite
  | .str s =>
      if trimWs s.data = [] then .finite 0
      else
        match parseIntChars (trimWs s.data) with
        | some n => .finite n
        | none => .notFinite

/-- `resolveKeyCode` (lines 32-41): retrieve the parameter (which may throw,
modelled by `Except.error`), coerce with `Number`, and keep the coercion when
it is finite, otherwise (or on a throw) return the fallback. -/
def resolveKeyCode (param : Except Unit JSValue) (fallback : Int) : Int :=
  match param with
  | .error _ => fallback
  | .ok v =>
      match toNumber v with
      | .finite n => n
      | .notFinite => fallback

/-- Line 21: `showGamepad` is assigned the raw `getParameter` result with no
try/catch and no default, so a retrieval failure propagates unchanged. -/
def showGamepadInit (param : Except Unit JSValue) : Except Unit JSValue :=
  param

/-! ## DOM mounting (src/code.js lines 187-259) -/

def DPAD_ID : String := "rpm-mobile-dpad"
def ABXY_ID : String := "rpm-mobile-abxy"

/-- The document state that the mount functions observe and mutate: the list
of mounted top-level container ids, and a count of all DOM nodes the plugin
has added (each cluster is one container, four buttons and four images). -/
structure VDocument where
  containerIds : List String
  nodeCount : Nat
deriving DecidableEq, Repr

/-- `document.getElementById(id)` restricted to the plugin's containers. -/
def getElementById (d : VDocument) (i : String) : Bool :=
  d.containerIds.contains i

/-- `mountDPad` (lines 187-220): no-op when the container id already exists,
otherwise append the container with its four buttons and four images. -/
def mountDPad (d : VDocument) : VDocument :=
  if getElementById d DPAD_ID then d
  else { containerIds := d.containerIds ++ [DPAD_ID], nodeCount := d.nodeCount + 9 }

/-- `mountABXY` (lines 226-259): same guard for the ABXY container. -/
def mountABXY (d : VDocument) : VDocument :=
  if getElementById d ABXY_ID then d
  else { containerIds := d.containerIds ++ [ABXY_ID], nodeCount := d.nodeCount + 9 }

/-! ## The input bridge state (src/code.js lines 18-19, 63-132, 160-182, 265-273) -/

/-- Hold / repeat behaviour constants (lines 18-19). -/
def REPEAT_DELAY : Nat := 180

def REPEAT_INTERVAL : Nat := 60

/-- Host notifications sent through `RPM.Manager.Stack`. -/
inductive HostEvent where
  | keyPressed (k : Int)
  | keyPressedAndRepeat (k : Int)
  | keyReleased (k : Int)
deriving DecidableEq, Repr

/-- One `activeRepeats` entry: `{ delay, interval }`, each a timer handle or
`null` (line 113 and line 115). -/
structure RepeatTimers where
  delay : Option Nat
  interval : Option Nat
deriving DecidableEq, Repr

/-- A live browser timer: its handle, the key code its callback captured, and
its duration in milliseconds. -/
structure Timer where
  id : Nat
  key : Int
  ms : Nat
deriving DecidableEq, Repr

/-- `Map.get`: the value of the first entry with the given key. -/
def mapGet {α : Type} (m : List (Int × α)) (k : Int) : Option α :=
  (m.find? (fun p => p.1 == k)).map (·.2)

/-- `Map.set`: replace the value in place when the key exists, else append. -/
def mapSet {α : Type} (m : List (Int × α)) (k : Int) (v : α) : List (Int × α) :=
  if m.any (fun p => p.1 == k) then
    m.map (fun p => if p.1 == k then (k, v) else p)
  else m ++ [(k, v)]

/-- `Map.delete`: drop every entry with the given key. -/
def mapDelete {α : Type} (m : List (Int × α)) (k : Int) : List (Int × α) :=
  m.filter (fun p => p.1 != k)

/-- The browser timer registry together with the module's `activeRepeats`
map: live one-shot timeouts, live intervals, and the per-key bookkeeping. -/
structure TimerState where
  timeouts : List Timer
  intervals : List Timer
  repeats : List (Int × RepeatTimers)
deriving DecidableEq, Repr

/-- The whole observable state: the host's readiness flags and pressed-keys
list, the module's pointer map and timers, the fresh-handle counter, and the
log of notifications delivered to the host. -/
structure GState where
  loaded : Bool
  stackLoading : Bool
  keysPressed : List Int
  pointerToKey : List (Int × Int)
  timers : TimerState
  nextTimerId : Nat
  events : List HostEvent
deriving DecidableEq, Repr

/-- `isReady` (line 72): `RPM.Main.loaded && !RPM.Manager.Stack.isLoading()`. -/
def isReady (s : GState) : Bool :=
  s.loaded && !s.stackLoading

/-- `clearRepeat` (lines 77-89) acting on the timer components: look up the
`activeRepeats` entry; when present, cancel its non-null delay handle and its
non-null interval handle, then delete the entry. -/
def clearRepeatT (k : Int) (ts : TimerState) : TimerState :=
  match mapGet ts.repeats k with
  | none => ts
  | some rt =>
      let touts :=
        match rt.delay with
        | some d => ts.timeouts.filter (fun t => t.id != d)
        | none => ts.timeouts
      let tints :=
        match rt.interval with
        | some i => ts.intervals.filter (fun t => t.id != i)
        | none => ts.intervals
      { timeouts := touts, intervals := tints, repeats := mapDelete ts.repeats k }

/-- `clearRepeat` lifted to the whole state. -/
def clearRepeat (k : Int) (s : GState) : GState :=
  { s with timers := clearRepeatT k s.timers }

/-- `pressKey` (lines 97-116): guard on readiness; push and notify
`onKeyPressed` only when the key code is not already pressed; always notify
`onKeyPressedAndRepeat`; clear existing repeat timers; arm a fresh
`REPEAT_DELAY` timeout and record it in `activeRepeats`. -/
def pressKey (k : Int) (s : GState) : GState :=
  if !isReady s then s
  else
    let s1 :=
      if s.keysPressed.contains k then s
      else { s with keysPressed := s.keysPressed ++ [k],
                    events := s.events ++ [HostEvent.keyPressed k] }
    let s2 := { s1 with events := s1.events ++ [HostEvent.keyPressedAndRepeat k] }
    let ts := clearRepeatT k s2.timers
    let d := s2.nextTimerId
    { s2 with
        nextTimerId := d + 1,
        timers :=
          { timeouts := ts.timeouts ++ [⟨d, k, REPEAT_DELAY⟩],
            intervals := ts.intervals,
            repeats := mapSet ts.repeats k ⟨some d, none⟩ } }

/-- The delay timeout fires (callback of lines 107-114): the one-shot timer is
spent, a fresh `REPEAT_INTERVAL` interval is armed for the captured key code,
and `activeRepeats` is overwritten with `{ delay: null, interval }`. -/
def fireDelayTimer (id : Nat) (s : GState) : GState :=
  match s.timers.timeouts.find? (fun t => t.id == id) with
  | none => s
  | some t =>
      let i := s.nextTimerId
      { s with
          nextTimerId := i + 1,
          timers :=
            { timeouts := s.timers.timeouts.filter (fun u => u.id != id),
              intervals := s.timers.intervals ++ [⟨i, t.key, REPEAT_INTERVAL⟩],
              repeats := mapSet s.timers.repeats t.key ⟨none, some i⟩ } }

/-- One tick of a live interval (lines 108-112): re-check readiness and that
the captured key code is still pressed, and only then notify
`onKeyPressedAndRepeat`; the interval stays live either way. -/
def fireIntervalTimer (id : Nat) (s : GState) : GState :=
  match s.timers.intervals.find? (fun t => t.id == id) with
  | none => s
  | some t =>
      if isReady s && s.keysPressed.contains t.key then
        { s with events := s.events ++ [HostEvent.keyPressedAndRepeat t.key] }
      else s

/-- `releaseKey` (lines 122-132): guard on readiness; clear the repeat timers;
remove the first occurrence of the key code from the pressed list when
present; notify `onKeyReleased` unconditionally. -/
def releaseKey (k : Int) (s : GState) : GState :=
  if !isReady s then s
  else
    let s1 := clearRepeat k s
    let s2 := { s1 with keysPressed := s1.keysPressed.erase k }
    { s2 with events := s2.events ++ [HostEvent.keyReleased k] }

/-- `handlePointerDown` (lines 160-165): record the pointer → key association
and press the key code. -/
def handlePointerDown (p : Int) (k : Int) (s : GState) : GState :=
  pressKey k { s with pointerToKey := mapSet s.pointerToKey p k }

/-- `handlePointerUp` (lines 167-174): when the pointer is tracked, drop the
association and release its key code; otherwise do nothing. -/
def handlePointerUp (p : Int) (s : GState) : GState :=
  match mapGet s.pointerToKey p with
  | none => s
  | some k => releaseKey k { s with pointerToKey := mapDelete s.pointerToKey p }

/-- The document-level `pointerup` listener (lines 265-273): identical
lookup / delete / release logic at the document level. -/
def handleGlobalPointerUp (p : Int) (s : GState) : GState :=
  match mapGet s.pointerToKey p with
  | none => s
  | some k => releaseKey k { s with pointerToKey := mapDelete s.pointerToKey p }

/-! ## Derived timer observations -/

/-- The live one-shot timeouts whose callback captured key code `k`. -/
def timeoutsFor (k : Int) (ts : TimerState) : List Timer :=
  ts.timeouts.filter (fun t => t.key == k)

/-- The live intervals whose callback captured key code `k`. -/
def intervalsFor (k : Int) (ts : TimerState) : List Timer :=
  ts.intervals.filter (fun t => t.key == k)

/-- No repeat machinery remains for `k`: no live timeout, no live interval,
no `activeRepeats` entry. -/
def noTimersFor (k : Int) (ts : TimerState) : Prop :=
  timeoutsFor k ts = [] ∧ intervalsFor k ts = [] ∧ mapGet ts.repeats k = none

/-- Every live timer for `k` is the one recorded in the `activeRepeats` entry
for `k` — the bookkeeping invariant the module maintains. -/
def trackedFor (k : Int) (ts : TimerState) : Prop :=
  (∀ t ∈ ts.timeouts, t.key = k →
    (mapGet ts.repeats k).bind RepeatTimers.delay = some t.id) ∧
  (∀ t ∈ ts.intervals, t.key = k →
    (mapGet ts.repeats k).bind RepeatTimers.interval = some t.id)

instance (k : Int) (ts : TimerState) : Decidable (noTimersFor k ts) := by
  unfold noTimersFor; infer_instance

instance (k : Int) (ts : TimerState) : Decidable (trackedFor k ts) := by
  unfold trackedFor; infer_instance

/-! ## Concrete states used to exercise the theorems -/

/-- A ready host with nothing pressed, no pointers and no timers. -/
def readyState : GState :=
  { loaded := true, stackLoading := false, keysPressed := [], pointerToKey := [],
    timers := { timeouts := [], intervals := [], repeats := [] },
    nextTimerId := 0, events := [] }

/-- A host that is not ready (not loaded) while key code 5 still has a live
delay timeout — the state reached when readiness is lost mid-press. -/
def leakedState : GState :=
  { loaded := false, stackLoading := false, keysPressed := [5], pointerToKey := [],
    timers := { timeouts := [⟨0, 5, REPEAT_DELAY⟩], intervals := [],
                repeats := [(5, ⟨some 0, none⟩)] },
    nextTimerId := 1, events := [] }

/-- A ready host holding key code 7 with a live repeat interval for it. -/
def tickState : GState :=
  { loaded := true, stackLoading := false, keysPressed := [7], pointerToKey := [],
    timers := { timeouts := [], intervals := [⟨2, 7, REPEAT_INTERVAL⟩],
                repeats := [(7, ⟨none, some 2⟩)] },
    nextTimerId := 3, events := [] }

/-- A ready host where pointer 7 is driving key code 13. -/
def pointerState : GState :=
  { loaded := true, stackLoading := false, keysPressed := [13], pointerToKey := [(7, 13)],
    timers := { timeouts := [], intervals := [], repeats := [] },
    nextTimerId := 0, events := [] }

/-! ## Map lemmas -/

lemma mapGet_eq_none {α : Type} (m : List (Int × α)) (k : Int) :
    mapGet m k = none ↔ ∀ p ∈ m, p.1 ≠ k := by
  simp [mapGet, List.find?_eq_none]

lemma mapGet_mapDelete_self {α : Type} (m : List (Int × α)) (k : Int) :
    mapGet (mapDelete m k) k = none := by
  rw [mapGet_eq_none]
  intro p hp
  simp only [mapDelete, List.mem_filter, bne_iff_ne, ne_eq] at hp
  exact hp.2

lemma mapGet_mapSet_self_of_none {α : Type} (m : List (Int × α)) (k : Int) (v : α)
    (h : mapGet m k = none) : mapGet (mapSet m k v) k = some v := by
  rw [mapGet_eq_none] at h
  have hany : m.any (fun p => p.1 == k) = false := by
    simp only [List.any_eq_false, beq_iff_eq]
    exact h
  simp only [mapSet, hany, Bool.false_eq_true, if_false, mapGet, List.find?_append]
  have hnone : m.find? (fun p => p.1 == k) = none := by
    rw [List.find?_eq_none]
    intro p hp
    simp [h p hp]
  simp [hnone, List.find?]

/-! ## clearRepeat lemmas -/

lemma timeoutsFor_eq_nil (k : Int) (ts : TimerState) :
    timeoutsFor k ts = [] ↔ ∀ t ∈ ts.timeouts, t.key ≠ k := by
  simp [timeoutsFor, List.filter_eq_nil_iff]

lemma intervalsFor_eq_nil (k : Int) (ts : TimerState) :
    intervalsFor k ts = [] ↔ ∀ t ∈ ts.intervals, t.key ≠ k := by
  simp [intervalsFor, List.filter_eq_nil_iff]

/-- `clearRepeat` removes every live timer for `k`, provided the live timers
for `k` are the tracked ones. -/
lemma clearRepeatT_noTimers (k : Int) (ts : TimerState) (h : trackedFor k ts) :
    noTimersFor k (clearRepeatT k ts) := by
  obtain ⟨h1, h2⟩ := h
  cases hm : mapGet ts.repeats k with
  | none =>
      have hto : ∀ t ∈ ts.timeouts, t.key ≠ k := by
        intro t ht hk
        have := h1 t ht hk
        rw [hm] at this
        simp at this
      have hti : ∀ t ∈ ts.intervals, t.key ≠ k := by
        intro t ht hk
        have := h2 t ht hk
        rw [hm] at this
        simp at this
      simp only [clearRepeatT, hm, noTimersFor]
      exact ⟨(timeoutsFor_eq_nil k ts).mpr hto, (intervalsFor_eq_nil k ts).mpr hti, trivial⟩
  | some rt =>
      simp only [clearRepeatT, hm, noTimersFor]
      refine ⟨?_, ?_, mapGet_mapDelete_self ts.repeats k⟩
      · rw [timeoutsFor_eq_nil]
        cases hd : rt.delay with
        | none =>
            intro t ht hk
            have := h1 t ht hk
            rw [hm] at this
            simp [hd] at this
        | some d =>
            intro t ht hk
            simp only [List.mem_filter, bne_iff_ne, ne_eq] at ht
            have := h1 t ht.1 hk
            rw [hm] at this
            simp [hd] at this
            exact ht.2 this.symm
      · rw [intervalsFor_eq_nil]
        cases hi : rt.interval with
        | none =>
            intro t ht hk
            have := h2 t ht hk
            rw [hm] at this
            simp [hi] at this
        | some i =>
            intro t ht hk
            simp only [List.mem_filter, bne_iff_ne, ne_eq] at ht
            have := h2 t ht.1 hk
            rw [hm] at this
            simp [hi] at this
            exact ht.2 this.symm

/-- Explicit form of `clearRepeat` when the entry holds only a delay handle. -/
lemma clearRepeatT_delay_only (k : Int) (d : Nat) (ts : TimerState)
    (h : mapGet ts.repeats k = some ⟨some d, none⟩) :
    clearRepeatT k ts =
      { timeouts := ts.timeouts.filter (fun t => t.id != d),
        intervals := ts.intervals,
        repeats := mapDelete ts.repeats k } := by
  simp [clearRepeatT, h]

/-! ## pressKey / releaseKey characterizations -/

/-- What `pressKey` does on a ready host, spelled out field by field. -/
lemma pressKey_ready (k : Int) (s : GState) (hr : isReady s = true) :
    pressKey k s =
      { loaded := s.loaded, stackLoading := s.stackLoading,
        keysPressed :=
          if s.keysPressed.contains k then s.keysPressed else s.keysPressed ++ [k],
        pointerToKey := s.pointerToKey,
        timers :=
          { timeouts :=
              (clearRepeatT k s.timers).timeouts ++ [⟨s.nextTimerId, k, REPEAT_DELAY⟩],
            intervals := (clearRepeatT k s.timers).intervals,
            repeats :=
              mapSet (clearRepeatT k s.timers).repeats k ⟨some s.nextTimerId, none⟩ },
        nextTimerId := s.nextTimerId + 1,
        events :=
          (if s.keysPressed.contains k then s.events
           else s.events ++ [HostEvent.keyPressed k]) ++
            [HostEvent.keyPressedAndRepeat k] } := by
  unfold pressKey
  rw [hr]
  cases hc : s.keysPressed.contains k <;> simp [hc]

/-- What `releaseKey` does on a ready host, spelled out field by field. -/
lemma releaseKey_ready (k : Int) (s : GState) (hr : isReady s = true) :
    releaseKey k s =
      { loaded := s.loaded, stackLoading := s.stackLoading,
        keysPressed := s.keysPressed.erase k,
        pointerToKey := s.pointerToKey,
        timers := clearRepeatT k s.timers,
        nextTimerId := s.nextTimerId,
        events := s.events ++ [HostEvent.keyReleased k] } := by
  unfold releaseKey clearRepeat
  rw [hr]
  simp

lemma releaseKey_pointerToKey (k : Int) (s : GState) :
    (releaseKey k s).pointerToKey = s.pointerToKey := by
  unfold releaseKey clearRepeat
  cases hr : isReady s <;> simp

/-- A fresh delay timeout on top of a timer state with no timers left for `k`
is tracked bookkeeping again. -/
lemma trackedFor_after_press (k : Int) (d : Nat) (ts1 : TimerState)
    (h : noTimersFor k ts1) :
    trackedFor k
      { timeouts := ts1.timeouts ++ [⟨d, k, REPEAT_DELAY⟩],
        intervals := ts1.intervals,
        repeats := mapSet ts1.repeats k ⟨some d, none⟩ } := by
  obtain ⟨hto, hti, hre⟩ := h
  have hget :=
    mapGet_mapSet_self_of_none ts1.repeats k (⟨some d, none⟩ : RepeatTimers) hre
  constructor
  · intro t ht hk
    simp only [List.mem_append, List.mem_singleton] at ht
    rcases ht with ht | ht
    · exact absurd hk ((timeoutsFor_eq_nil k ts1).mp hto t ht)
    · subst ht
      simp [hget]
  · intro t ht hk
    exact absurd hk ((intervalsFor_eq_nil k ts1).mp hti t ht)

/-- Pressing leaves exactly one occurrence of the key code in the list,
starting from a list holding it at most once. -/
lemma press_keys_count (k : Int) (l : List Int) (hc : l.count k ≤ 1) :
    (if l.contains k then l else l ++ [k]).count k = 1 := by
  cases hm : l.contains k
  · have hnot : k ∉ l := by simpa using hm
    simp [List.count_append, List.count_eq_zero.mpr hnot]
  · have hmem : k ∈ l := List.elem_iff.mp hm
    have hpos : 0 < l.count k := List.count_pos_iff.mpr hmem
    simp only [if_true]
    omega

lemma erase_count_one (k : Int) (l : List Int) (h : l.count k = 1) :
    k ∉ l.erase k := by
  have hcount := List.count_erase_self k l
  rw [← List.count_eq_zero]
  omega

/-! ## Claim theorems -/

/-- Claim C1: when the host is ready, `press(k)` followed by `release(k)`
leaves the pressed-keys list without `k` and leaves no live delay timeout, no
live interval and no `activeRepeats` entry for `k`. -/
theorem press_then_release_clean (k : Int) (s : GState)
    (hr : isReady s = true) (hc : s.keysPressed.count k ≤ 1)
    (ht : trackedFor k s.timers) :
    k ∉ (releaseKey k (pressKey k s)).keysPressed ∧
    noTimersFor k (releaseKey k (pressKey k s)).timers := by
  have h0 := clearRepeatT_noTimers k s.timers ht
  have hp := pressKey_ready k s hr
  have hr2 : isReady (pressKey k s) = true := by
    rw [hp]
    simpa [isReady] using hr
  rw [releaseKey_ready k (pressKey k s) hr2]
  constructor
  · show k ∉ (pressKey k s).keysPressed.erase k
    apply erase_count_one
    rw [hp]
    exact press_keys_count k s.keysPressed hc
  · show noTimersFor k (clearRepeatT k (pressKey k s).timers)
    apply clearRepeatT_noTimers
    rw [hp]
    exact trackedFor_after_press k s.nextTimerId (clearRepeatT k s.timers) h0

theorem press_then_release_clean_witness :
    (isReady readyState = true ∧ readyState.keysPressed.count 5 ≤ 1 ∧
      trackedFor 5 readyState.timers) ∧
    ((5 : Int) ∉ (releaseKey 5 (pressKey 5 readyState)).keysPressed ∧
      noTimersFor 5 (releaseKey 5 (pressKey 5 readyState)).timers) :=
  ⟨⟨by decide, by decide, by decide⟩,
    press_then_release_clean 5 readyState (by decide) (by decide) (by decide)⟩

/-- Claim C2: on a ready host, one `press(k)` call notifies "key pressed"
exactly once precisely when `k` was not already pressed (appending `k` in
that case), and notifies "key pressed-or-repeat" exactly once regardless. -/
theorem press_notifies (k : Int) (s : GState) (hr : isReady s = true) :
    (pressKey k s).events =
      s.events ++
        (if k ∈ s.keysPressed then [HostEvent.keyPressedAndRepeat k]
         else [HostEvent.keyPressed k, HostEvent.keyPressedAndRepeat k]) ∧
    (pressKey k s).keysPressed =
      (if k ∈ s.keysPressed then s.keysPressed else s.keysPressed ++ [k]) := by
  rw [pressKey_ready k s hr]
  by_cases hm : k ∈ s.keysPressed
  · have hcon : s.keysPressed.contains k = true := List.elem_iff.mpr hm
    simp [hcon, hm]
  · have hcon : s.keysPressed.contains k = false := by
      cases hcon2 : s.keysPressed.contains k
      · rfl
      · exact absurd (List.elem_iff.mp hcon2) hm
    simp [hcon, hm]

theorem press_notifies_witness :
    isReady readyState = true ∧
    ((pressKey 5 readyState).events =
        readyState.events ++
          (if (5 : Int) ∈ readyState.keysPressed
           then [HostEvent.keyPressedAndRepeat 5]
           else [HostEvent.keyPressed 5, HostEvent.keyPressedAndRepeat 5]) ∧
      (pressKey 5 readyState).keysPressed =
        (if (5 : Int) ∈ readyState.keysPressed then readyState.keysPressed
         else readyState.keysPressed ++ [5])) :=
  ⟨by decide, press_notifies 5 readyState (by decide)⟩

/-- Claim C4 counterexample: `releaseKey` returns early when the host is not
ready (line 123), so a live delay timeout for key code 5 — and its
`activeRepeats` entry — survive the release, refuting "regardless of the
host's readiness state". -/
theorem release_not_ready_keeps_timer :
    isReady leakedState = false ∧
    timeoutsFor 5 (releaseKey 5 leakedState).timers = [⟨0, 5, REPEAT_DELAY⟩] ∧
    mapGet (releaseKey 5 leakedState).timers.repeats 5 = some ⟨some 0, none⟩ := by
  decide

/-- Claim C4 (amended): when the host is ready at the time of the call,
`release(k)` clears both timer handles for `k` — no delay timeout, interval
or `activeRepeats` entry for `k` survives. -/
theorem release_ready_clears_timers (k : Int) (s : GState)
    (hr : isReady s = true) (ht : trackedFor k s.timers) :
    noTimersFor k (releaseKey k s).timers := by
  rw [releaseKey_ready k s hr]
  exact clearRepeatT_noTimers k s.timers ht

theorem release_ready_clears_timers_witness :
    (isReady tickState = true ∧ trackedFor 7 tickState.timers) ∧
    noTimersFor 7 (releaseKey 7 tickState).timers :=
  ⟨⟨by decide, by decide⟩,
    release_ready_clears_timers 7 tickState (by decide) (by decide)⟩

/-- Claim C5: pressing while the host is not ready changes nothing at all —
no pressed-keys mutation, no timers, no notifications. -/
theorem press_not_ready_noop (k : Int) (s : GState) (hr : isReady s = false) :
    pressKey k s = s := by
  simp [pressKey, hr]

theorem press_not_ready_noop_witness :
    isReady leakedState = false ∧ pressKey 9 leakedState = leakedState :=
  ⟨by decide, press_not_ready_noop 9 leakedState (by decide)⟩

/-- Claim C3: two `press(k)` calls in a row on a ready host leave exactly one
occurrence of `k` pressed; the second call cancels the delay timeout armed by
the first (handle `s.nextTimerId`) and arms a fresh `REPEAT_DELAY` timeout
(handle `s.nextTimerId + 1`), with no interval running for `k`. -/
theorem press_twice_restarts (k : Int) (s : GState)
    (hr : isReady s = true) (hc : s.keysPressed.count k ≤ 1)
    (ht : trackedFor k s.timers) :
    (pressKey k (pressKey k s)).keysPressed.count k = 1 ∧
    (∀ t ∈ (pressKey k (pressKey k s)).timers.timeouts, t.id ≠ s.nextTimerId) ∧
    timeoutsFor k (pressKey k (pressKey k s)).timers =
      [⟨s.nextTimerId + 1, k, REPEAT_DELAY⟩] ∧
    intervalsFor k (pressKey k (pressKey k s)).timers = [] ∧
    REPEAT_DELAY = 180 := by
  obtain ⟨hto, hti, hre⟩ := clearRepeatT_noTimers k s.timers ht
  have hp1 := pressKey_ready k s hr
  have hr2 : isReady (pressKey k s) = true := by
    rw [hp1]
    simpa [isReady] using hr
  have hcount1 : (pressKey k s).keysPressed.count k = 1 := by
    rw [hp1]
    exact press_keys_count k s.keysPressed hc
  have hcon2 : (pressKey k s).keysPressed.contains k = true := by
    have hpos : 0 < (pressKey k s).keysPressed.count k := by omega
    exact List.elem_iff.mpr (List.count_pos_iff.mp hpos)
  have hget : mapGet (pressKey k s).timers.repeats k =
      some ⟨some s.nextTimerId, none⟩ := by
    rw [hp1]
    exact mapGet_mapSet_self_of_none _ _ _ hre
  have hp2 := pressKey_ready k (pressKey k s) hr2
  have hclr2 := clearRepeatT_delay_only k s.nextTimerId (pressKey k s).timers hget
  have htouts1 : (pressKey k s).timers.timeouts =
      (clearRepeatT k s.timers).timeouts ++ [⟨s.nextTimerId, k, REPEAT_DELAY⟩] := by
    rw [hp1]
  have htints1 : (pressKey k s).timers.intervals =
      (clearRepeatT k s.timers).intervals := by
    rw [hp1]
  have hnext1 : (pressKey k s).nextTimerId = s.nextTimerId + 1 := by
    rw [hp1]
  refine ⟨?_, ?_, ?_, ?_, rfl⟩
  · rw [hp2]
    simp only [hcon2, if_true]
    exact hcount1
  · rw [hp2]
    simp only [hclr2]
    intro t htm
    simp only [List.mem_append, List.mem_filter, List.mem_singleton,
      bne_iff_ne, ne_eq] at htm
    rcases htm with ⟨_, hne⟩ | heq
    · exact hne
    · simp [heq, hnext1]
  · rw [hp2]
    simp only [hclr2, timeoutsFor, List.filter_append]
    have hfirst :
        ((pressKey k s).timers.timeouts.filter
            (fun t => t.id != s.nextTimerId)).filter (fun t => t.key == k) = [] := by
      rw [List.filter_eq_nil_iff]
      intro t htm
      simp only [List.mem_filter, bne_iff_ne, ne_eq] at htm
      obtain ⟨htm0, hid⟩ := htm
      rw [htouts1] at htm0
      simp only [List.mem_append, List.mem_singleton] at htm0
      rcases htm0 with htm0 | htm0
      · simpa using (timeoutsFor_eq_nil k (clearRepeatT k s.timers)).mp hto t htm0
      · exact absurd (by rw [htm0]) hid
    rw [hfirst, hnext1]
    simp
  · rw [hp2]
    simp only [hclr2, intervalsFor]
    rw [htints1]
    exact hti

theorem press_twice_restarts_witness :
    (isReady readyState = true ∧ readyState.keysPressed.count 5 ≤ 1 ∧
      trackedFor 5 readyState.timers) ∧
    ((pressKey 5 (pressKey 5 readyState)).keysPressed.count 5 = 1 ∧
      (∀ t ∈ (pressKey 5 (pressKey 5 readyState)).timers.timeouts,
        t.id ≠ readyState.nextTimerId) ∧
      timeoutsFor 5 (pressKey 5 (pressKey 5 readyState)).timers =
        [⟨readyState.nextTimerId + 1, 5, REPEAT_DELAY⟩] ∧
      intervalsFor 5 (pressKey 5 (pressKey 5 readyState)).timers = [] ∧
      REPEAT_DELAY = 180) :=
  ⟨⟨by decide, by decide, by decide⟩,
    press_twice_restarts 5 readyState (by decide) (by decide) (by decide)⟩

/-- Claim C6: an interval tick armed for a key code re-checks readiness and
membership in the pressed list: in a state where either fails it changes
nothing, and when both hold it notifies "key pressed-or-repeat" once. -/
theorem interval_tick_rechecks (id : Nat) (t : Timer) (s : GState)
    (hfind : s.timers.intervals.find? (fun u => u.id == id) = some t) :
    (¬(isReady s = true ∧ t.key ∈ s.keysPressed) → fireIntervalTimer id s = s) ∧
    (isReady s = true → t.key ∈ s.keysPressed →
      (fireIntervalTimer id s).events =
        s.events ++ [HostEvent.keyPressedAndRepeat t.key]) := by
  constructor
  · intro hng
    have hcond : (isReady s && s.keysPressed.contains t.key) = false := by
      cases hrd : isReady s
      · simp
      · cases hmm : s.keysPressed.contains t.key
        · simp
        · exact absurd ⟨hrd, List.elem_iff.mp hmm⟩ hng
    simp only [fireIntervalTimer, hfind, hcond, Bool.false_eq_true, if_false]
  · intro hrd hmm
    have hcon : s.keysPressed.contains t.key = true := List.elem_iff.mpr hmm
    have hcond : (isReady s && s.keysPressed.contains t.key) = true := by
      rw [hrd, hcon]
      rfl
    simp only [fireIntervalTimer, hfind, hcond, if_true]

theorem interval_tick_rechecks_witness :
    tickState.timers.intervals.find? (fun u => u.id == 2) =
      some ⟨2, 7, REPEAT_INTERVAL⟩ ∧
    ((¬(isReady tickState = true ∧ (7 : Int) ∈ tickState.keysPressed) →
        fireIntervalTimer 2 tickState = tickState) ∧
      (isReady tickState = true → (7 : Int) ∈ tickState.keysPressed →
        (fireIntervalTimer 2 tickState).events =
          tickState.events ++ [HostEvent.keyPressedAndRepeat 7])) :=
  ⟨by decide,
    interval_tick_rechecks 2 ⟨2, 7, REPEAT_INTERVAL⟩ tickState (by decide)⟩

/-- Claim C7 counterexample: line 21 assigns the raw `getParameter` result to
`showGamepad` with no try/catch and no hard-coded default, so a failing read
of the "Show Gamepad" startup parameter propagates instead of degrading, and
a missing parameter yields `undefined` rather than any default. -/
theorem showGamepad_read_propagates :
    showGamepadInit (Except.error ()) = Except.error () ∧
    showGamepadInit (Except.ok JSValue.undefined) = Except.ok JSValue.undefined :=
  ⟨rfl, rfl⟩

/-- Claim C7 (amended): each key-code configuration value is resolved through
`resolveKeyCode`, which returns the hard-coded fallback on every failure — a
throwing retrieval or a non-finite numeric coercion — and never propagates an
error; the "Show Gamepad" flag alone is read raw, without this guard. -/
theorem resolveKeyCode_defensive (param : Except Unit JSValue) (fb : Int)
    (h : param = Except.error () ∨
      ∃ v, param = Except.ok v ∧ toNumber v = NumCoercion.notFinite) :
    resolveKeyCode param fb = fb := by
  rcases h with h | ⟨v, hv, hnf⟩
  · rw [h]
    rfl
  · rw [hv]
    simp [resolveKeyCode, hnf]

theorem resolveKeyCode_defensive_witness :
    ((Except.ok JSValue.undefined : Except Unit JSValue) = Except.error () ∨
      ∃ v, (Except.ok JSValue.undefined : Except Unit JSValue) = Except.ok v ∧
        toNumber v = NumCoercion.notFinite) ∧
    resolveKeyCode (Except.ok JSValue.undefined) 87 = 87 :=
  ⟨Or.inr ⟨JSValue.undefined, rfl, rfl⟩,
    resolveKeyCode_defensive (Except.ok JSValue.undefined) 87
      (Or.inr ⟨JSValue.undefined, rfl, rfl⟩)⟩

/-- Claim C8: when pointer `p` is tracked as driving key code `k`, the
button's pointer-up handler performs the single release (after dropping the
map entry), the subsequent document-level pointer-up listener finds no entry
and does nothing — in either order — and on a ready host exactly one
"key released" notification results. -/
theorem pointer_up_releases_once (p k : Int) (s : GState)
    (hp : mapGet s.pointerToKey p = some k) :
    handlePointerUp p s =
      releaseKey k { s with pointerToKey := mapDelete s.pointerToKey p } ∧
    handleGlobalPointerUp p (handlePointerUp p s) = handlePointerUp p s ∧
    handlePointerUp p (handleGlobalPointerUp p s) = handleGlobalPointerUp p s ∧
    (isReady s = true →
      (handleGlobalPointerUp p (handlePointerUp p s)).events =
        s.events ++ [HostEvent.keyReleased k]) := by
  have h1 : handlePointerUp p s =
      releaseKey k { s with pointerToKey := mapDelete s.pointerToKey p } := by
    simp only [handlePointerUp, hp]
  have h1g : handleGlobalPointerUp p s =
      releaseKey k { s with pointerToKey := mapDelete s.pointerToKey p } := by
    simp only [handleGlobalPointerUp, hp]
  have hpt : (handlePointerUp p s).pointerToKey = mapDelete s.pointerToKey p := by
    rw [h1, releaseKey_pointerToKey]
  have hptg : (handleGlobalPointerUp p s).pointerToKey =
      mapDelete s.pointerToKey p := by
    rw [h1g, releaseKey_pointerToKey]
  have hnone : mapGet (handlePointerUp p s).pointerToKey p = none := by
    rw [hpt]
    exact mapGet_mapDelete_self _ _
  have hnoneg : mapGet (handleGlobalPointerUp p s).pointerToKey p = none := by
    rw [hptg]
    exact mapGet_mapDelete_self _ _
  have h2 : handleGlobalPointerUp p (handlePointerUp p s) = handlePointerUp p s := by
    simp only [handleGlobalPointerUp, hnone]
  have h3 : handlePointerUp p (handleGlobalPointerUp p s) =
      handleGlobalPointerUp p s := by
    simp only [handlePointerUp, hnoneg]
  refine ⟨h1, h2, h3, ?_⟩
  intro hrd
  have hrd' : isReady { s with pointerToKey := mapDelete s.pointerToKey p } = true := by
    simpa [isReady] using hrd
  rw [h2, h1, releaseKey_ready _ _ hrd']

theorem pointer_up_releases_once_witness :
    mapGet pointerState.pointerToKey 7 = some 13 ∧
    (handlePointerUp 7 pointerState =
        releaseKey 13
          { pointerState with
              pointerToKey := mapDelete pointerState.pointerToKey 7 } ∧
      handleGlobalPointerUp 7 (handlePointerUp 7 pointerState) =
        handlePointerUp 7 pointerState ∧
      handlePointerUp 7 (handleGlobalPointerUp 7 pointerState) =
        handleGlobalPointerUp 7 pointerState ∧
      (isReady pointerState = true →
        (handleGlobalPointerUp 7 (handlePointerUp 7 pointerState)).events =
          pointerState.events ++ [HostEvent.keyReleased 13])) :=
  ⟨by decide, pointer_up_releases_once 7 13 pointerState (by decide)⟩

/-- Claim C9: mounting is idempotent — a mount call whose container id is
already in the document changes nothing — so mounting both clusters twice in
sequence adds nothing the second time and leaves exactly one container per
id. -/
theorem mount_clusters_idempotent (d : VDocument)
    (hd : DPAD_ID ∉ d.containerIds) (ha : ABXY_ID ∉ d.containerIds) :
    (∀ e : VDocument, getElementById e DPAD_ID = true → mountDPad e = e) ∧
    (∀ e : VDocument, getElementById e ABXY_ID = true → mountABXY e = e) ∧
    mountABXY (mountDPad (mountABXY (mountDPad d))) = mountABXY (mountDPad d) ∧
    (mountABXY (mountDPad d)).containerIds.count DPAD_ID = 1 ∧
    (mountABXY (mountDPad d)).containerIds.count ABXY_ID = 1 := by
  have hne : DPAD_ID ≠ ABXY_ID := by decide
  have hnop1 : ∀ e : VDocument, getElementById e DPAD_ID = true → mountDPad e = e := by
    intro e he
    simp [mountDPad, he]
  have hnop2 : ∀ e : VDocument, getElementById e ABXY_ID = true → mountABXY e = e := by
    intro e he
    simp [mountABXY, he]
  have hdc : getElementById d DPAD_ID = false := by
    simp only [getElementById]
    simpa using hd
  have hmd : mountDPad d =
      { containerIds := d.containerIds ++ [DPAD_ID], nodeCount := d.nodeCount + 9 } := by
    simp [mountDPad, hdc]
  have hac : getElementById
      ({ containerIds := d.containerIds ++ [DPAD_ID],
         nodeCount := d.nodeCount + 9 } : VDocument) ABXY_ID = false := by
    simp only [getElementById]
    simp [ha, hne.symm]
  have hma : mountABXY (mountDPad d) =
      { containerIds := d.containerIds ++ [DPAD_ID] ++ [ABXY_ID],
        nodeCount := d.nodeCount + 9 + 9 } := by
    rw [hmd]
    simp [mountABXY, hac]
  have hdm : (mountABXY (mountDPad d)).containerIds =
      d.containerIds ++ [DPAD_ID] ++ [ABXY_ID] := by
    rw [hma]
  have hd2 : getElementById (mountABXY (mountDPad d)) DPAD_ID = true := by
    simp only [getElementById, hdm]
    simp
  have ha2 : getElementById (mountABXY (mountDPad d)) ABXY_ID = true := by
    simp only [getElementById, hdm]
    simp
  refine ⟨hnop1, hnop2, ?_, ?_, ?_⟩
  · rw [hnop1 (mountABXY (mountDPad d)) hd2]
    exact hnop2 (mountABXY (mountDPad d)) ha2
  · rw [hdm]
    simp [List.count_append, List.count_eq_zero.mpr hd, hne]
  · rw [hdm]
    simp [List.count_append, List.count_eq_zero.mpr ha, hne.symm]

theorem mount_clusters_idempotent_witness :
    (DPAD_ID ∉ ([] : List String) ∧ ABXY_ID ∉ ([] : List String)) ∧
    ((∀ e : VDocument, getElementById e DPAD_ID = true → mountDPad e = e) ∧
      (∀ e : VDocument, getElementById e ABXY_ID = true → mountABXY e = e) ∧
      mountABXY (mountDPad (mountABXY (mountDPad ⟨[], 0⟩))) =
        mountABXY (mountDPad ⟨[], 0⟩) ∧
      (mountABXY (mountDPad ⟨[], 0⟩)).containerIds.count DPAD_ID = 1 ∧
      (mountABXY (mountDPad ⟨[], 0⟩)).containerIds.count ABXY_ID = 1) :=
  ⟨⟨by decide, by decide⟩,
    mount_clusters_idempotent ⟨[], 0⟩ (by decide) (by decide)⟩

/-- Claim C10: `resolveKeyCode` returns the numeric coercion of the retrieved
value whenever it is finite — `0` for `null`, the empty string and `false` —
and the fallback exactly on a non-finite coercion (such as `undefined` or a
non-numeric string) or a throwing retrieval. -/
theorem resolveKeyCode_coercion (v : JSValue) (fb n : Int)
    (hfin : toNumber v = NumCoercion.finite n) :
    resolveKeyCode (Except.ok v) fb = n ∧
    resolveKeyCode (Except.ok JSValue.null) fb = 0 ∧
    resolveKeyCode (Except.ok (JSValue.str "")) fb = 0 ∧
    resolveKeyCode (Except.ok (JSValue.boolean false)) fb = 0 ∧
    resolveKeyCode (Except.ok (JSValue.str "abc")) fb = fb ∧
    resolveKeyCode (Except.ok JSValue.undefined) fb = fb ∧
    (∀ w, toNumber w = NumCoercion.notFinite →
      resolveKeyCode (Except.ok w) fb = fb) ∧
    resolveKeyCode (Except.error ()) fb = fb := by
  refine ⟨?_, rfl, rfl, rfl, rfl, rfl, ?_, rfl⟩
  · simp [resolveKeyCode, hfin]
  · intro w hw
    simp [resolveKeyCode, hw]

theorem resolveKeyCode_coercion_witness :
    toNumber (JSValue.number 42) = NumCoercion.finite 42 ∧
    (resolveKeyCode (Except.ok (JSValue.number 42)) 87 = 42 ∧
      resolveKeyCode (Except.ok JSValue.null) 87 = 0 ∧
      resolveKeyCode (Except.ok (JSValue.str "")) 87 = 0 ∧
      resolveKeyCode (Except.ok (JSValue.boolean false)) 87 = 0 ∧
      resolveKeyCode (Except.ok (JSValue.str "abc")) 87 = 87 ∧
      resolveKeyCode (Except.ok JSValue.undefined) 87 = 87 ∧
      (∀ w, toNumber w = NumCoercion.notFinite →
        resolveKeyCode (Except.ok w) 87 = 87) ∧
      resolveKeyCode (Except.error ()) 87 = 87) :=
  ⟨rfl, resolveKeyCode_coercion (JSValue.number 42) 87 42 rfl⟩

end VirtualGamepad
